import Mathlib

set_option maxRecDepth 40000

/-!
Verification of the entropy-sourcing core of the random-number-generator
repository: the seed-pool manager (`src/services/seedPool.ts`), the
SHA-256 hash-chain PRNG and its persistence (`src/services/randomService.ts`,
client side), and the server draw handler (`src/services/randomService.ts`,
server side).  Bytes are modelled as `Nat` (values < 256), JavaScript
numbers holding unsigned raw entropy as `Nat`, and signed range endpoints
as `Int`.  External effects (network responses, KV-store outcomes, CSPRNG
output) are inputs of the embedded functions.
-/

namespace RNG

/-! ### SHA-256 over byte lists

Faithful model of the `crypto.subtle.digest("SHA-256", input)` primitive
used by `SeededPRNG.nextBytes`.  Words are `Nat` reduced modulo `2^32`.
-/

def w32 (n : Nat) : Nat := n % 4294967296

def rotr (n x : Nat) : Nat := w32 ((x >>> n) ||| (x <<< (32 - n)))

def shr (n x : Nat) : Nat := x >>> n

def sSigma0 (x : Nat) : Nat := (rotr 7 x) ^^^ (rotr 18 x) ^^^ (shr 3 x)

def sSigma1 (x : Nat) : Nat := (rotr 17 x) ^^^ (rotr 19 x) ^^^ (shr 10 x)

def bSigma0 (x : Nat) : Nat := (rotr 2 x) ^^^ (rotr 13 x) ^^^ (rotr 22 x)

def bSigma1 (x : Nat) : Nat := (rotr 6 x) ^^^ (rotr 11 x) ^^^ (rotr 25 x)

def chF (x y z : Nat) : Nat := (x &&& y) ^^^ ((x ^^^ 4294967295) &&& z)

def majF (x y z : Nat) : Nat := (x &&& y) ^^^ (x &&& z) ^^^ (y &&& z)

def shaK : List Nat :=
  [1116352408, 1899447441, 3049323471, 3921009573,
   961987163, 1508970993, 2453635748, 2870763221,
   3624381080, 310598401, 607225278, 1426881987,
   1925078388, 2162078206, 2614888103, 3248222580,
   3835390401, 4022224774, 264347078, 604807628,
   770255983, 1249150122, 1555081692, 1996064986,
   2554220882, 2821834349, 2952996808, 3210313671,
   3336571891, 3584528711, 113926993, 338241895,
   666307205, 773529912, 1294757372, 1396182291,
   1695183700, 1986661051, 2177026350, 2456956037,
   2730485921, 2820302411, 3259730800, 3345764771,
   3516065817, 3600352804, 4094571909, 275423344,
   430227734, 506948616, 659060556, 883997877,
   958139571, 1322822218, 1537002063, 1747873779,
   1955562222, 2024104815, 2227730452, 2361852424,
   2428436474, 2756734187, 3204031479, 3329325298]

structure Hash8 where
  a : Nat
  b : Nat
  c : Nat
  d : Nat
  e : Nat
  f : Nat
  g : Nat
  hh : Nat
  deriving DecidableEq, Repr

def shaH0 : Hash8 :=
  ⟨1779033703, 3144134277, 1013904242, 2773480762,
   1359893119, 2600822924, 528734635, 1541459225⟩

/-- Extend the 16 message words of one block to the 64-entry schedule. -/
def schedule (block : List Nat) : List Nat :=
  (List.range 48).foldl
    (fun ws _ =>
      let n := ws.length
      ws ++ [w32 (sSigma1 (ws.getD (n - 2) 0) + ws.getD (n - 7) 0 +
                  sSigma0 (ws.getD (n - 15) 0) + ws.getD (n - 16) 0)])
    block

def shaRound (st : Hash8) (ki wi : Nat) : Hash8 :=
  let t1 := w32 (st.hh + bSigma1 st.e + chF st.e st.f st.g + ki + wi)
  let t2 := w32 (bSigma0 st.a + majF st.a st.b st.c)
  ⟨w32 (t1 + t2), st.a, st.b, st.c, w32 (st.d + t1), st.e, st.f, st.g⟩

def compressBlock (st : Hash8) (block : List Nat) : Hash8 :=
  let ws := schedule block
  let fin := (shaK.zip ws).foldl (fun s kw => shaRound s kw.1 kw.2) st
  ⟨w32 (st.a + fin.a), w32 (st.b + fin.b), w32 (st.c + fin.c), w32 (st.d + fin.d),
   w32 (st.e + fin.e), w32 (st.f + fin.f), w32 (st.g + fin.g), w32 (st.hh + fin.hh)⟩

/-- Big-endian 4-byte groups to 32-bit words. -/
def bytesToWords : List Nat → List Nat
  | b0 :: b1 :: b2 :: b3 :: rest =>
      (((b0 * 256 + b1) * 256 + b2) * 256 + b3) :: bytesToWords rest
  | _ => []

/-- Fold the compression function over the 16-word blocks of a word list
(`shaPad` always yields a whole number of 64-byte blocks). -/
def foldBlocks (st : Hash8) : List Nat → Hash8
  | w0 :: w1 :: w2 :: w3 :: w4 :: w5 :: w6 :: w7 ::
    w8 :: w9 :: w10 :: w11 :: w12 :: w13 :: w14 :: w15 :: rest =>
      foldBlocks (compressBlock st
        [w0, w1, w2, w3, w4, w5, w6, w7, w8, w9, w10, w11, w12, w13, w14, w15]) rest
  | _ => st

/-- Big-endian 8-byte encoding of a natural number (used both for the
SHA-256 length field and for the PRNG counter, which JavaScript writes
with `setBigUint64(..., false)`). -/
def be64 (n : Nat) : List Nat :=
  [(n >>> 56) % 256, (n >>> 48) % 256, (n >>> 40) % 256, (n >>> 32) % 256,
   (n >>> 24) % 256, (n >>> 16) % 256, (n >>> 8) % 256, n % 256]

/-- SHA-256 padding: append 0x80, zeros to 56 mod 64, then the 64-bit
big-endian bit length. -/
def shaPad (msg : List Nat) : List Nat :=
  let padZeros := (119 - msg.length % 64) % 64
  msg ++ [0x80] ++ List.replicate padZeros 0 ++ be64 (msg.length * 8)

def wordBytes (w : Nat) : List Nat :=
  [(w >>> 24) % 256, (w >>> 16) % 256, (w >>> 8) % 256, w % 256]

def hashToBytes (s : Hash8) : List Nat :=
  wordBytes s.a ++ wordBytes s.b ++ wordBytes s.c ++ wordBytes s.d ++
  wordBytes s.e ++ wordBytes s.f ++ wordBytes s.g ++ wordBytes s.hh

/-- SHA-256 of a byte list, as a 32-entry byte list. -/
def sha256 (msg : List Nat) : List Nat :=
  hashToBytes (foldBlocks shaH0 (bytesToWords (shaPad msg)))

/-! ### SeededPRNG (`src/services/randomService.ts`, client side)

State is the seed byte array plus the block counter; `nextBytes` is the
`while (offset < count)` loop hashing `seed ‖ be64(counter)` per block.
-/

structure PRNGState where
  seed : List Nat
  counter : Nat
  deriving DecidableEq, Repr

/-- The body of `SeededPRNG.nextBytes`: generate SHA-256 blocks of
`seed ‖ be64(counter)`, copying `min(blockLength, remaining)` bytes and
incrementing the counter per iteration, until `remaining` bytes exist.
Returns the bytes and the final counter. -/
def nextBytesGo (seed : List Nat) (counter remaining : Nat) : List Nat × Nat :=
  if remaining = 0 then ([], counter)
  else
    let hashBytes := sha256 (seed ++ be64 counter)
    let toCopy := Nat.min hashBytes.length remaining
    let rest := nextBytesGo seed (counter + 1) (remaining - toCopy)
    (hashBytes.take toCopy ++ rest.1, rest.2)
termination_by remaining
decreasing_by
  rw [show (sha256 (seed ++ be64 counter)).length = 32 from by
    simp [sha256, hashToBytes, wordBytes]]
  simp only [Nat.min_def]
  split <;> omega

def nextBytes (count : Nat) (st : PRNGState) : List Nat × PRNGState :=
  let r := nextBytesGo st.seed st.counter count
  (r.1, ⟨st.seed, r.2⟩)

/-- Number of 32-byte SHA-256 blocks the `nextBytes` loop consumes to
produce `n` bytes (one per iteration). -/
def blocksNeeded (n : Nat) : Nat := (n + 31) / 32

/-- `DataView.getUint32(0, false)`: big-endian 32-bit read of the first
four bytes. -/
def u32FromBytes (b : List Nat) : Nat :=
  ((b.getD 0 0 * 256 + b.getD 1 0) * 256 + b.getD 2 0) * 256 + b.getD 3 0

/-- `SeededPRNG.nextInt`. -/
def nextInt (mn mx : Int) (st : PRNGState) : Int × PRNGState :=
  let range := mx - mn + 1
  let r := nextBytes 4 st
  (mn + (u32FromBytes r.1 : Int) % range, r.2)

/-- `SeededPRNG.nextInts`: draw `count * 4` bytes, read a big-endian
32-bit word per 4-byte slice, reduce modulo the range and offset. -/
def nextInts (mn mx : Int) (count : Nat) (st : PRNGState) : List Int × PRNGState :=
  let range := mx - mn + 1
  let r := nextBytes (count * 4) st
  ((List.range count).map
    (fun i => mn + (u32FromBytes (r.1.drop (i * 4)) : Int) % range), r.2)

/-- `SeededPRNG.hexToBytes` character value (`Number.parseInt(…, 16)` on a
two-character slice; non-hex characters are not produced by the callers). -/
def hexVal (c : Char) : Nat :=
  if '0' ≤ c ∧ c ≤ '9' then c.toNat - '0'.toNat
  else if 'a' ≤ c ∧ c ≤ 'f' then c.toNat - 'a'.toNat + 10
  else if 'A' ≤ c ∧ c ≤ 'F' then c.toNat - 'A'.toNat + 10
  else 0

/-- `SeededPRNG.hexToBytes`: one byte per two hex characters (a trailing
odd character is dropped, as `Uint8Array(hex.length / 2)` floors). -/
def hexToBytes : List Char → List Nat
  | c1 :: c2 :: rest => (hexVal c1 * 16 + hexVal c2) :: hexToBytes rest
  | _ => []

/-- The `SeededPRNG` constructor: seed bytes from the hex string, with an
explicit starting counter (`0` by default in the code). -/
def mkPRNG (seedHex : List Char) (counter : Nat) : PRNGState :=
  ⟨hexToBytes seedHex, counter⟩

/-- A sequence of `nextInts` draws (`(min, max, count)` each), as performed
by repeated `generateNumbers` calls; returns all outputs and final state. -/
def runDraws : List (Int × Int × Nat) → PRNGState → List (List Int) × PRNGState
  | [], st => ([], st)
  | d :: rest, st =>
    let r := nextInts d.1 d.2.1 d.2.2 st
    let s := runDraws rest r.2
    (r.1 :: s.1, s.2)

/-! ### Seed pool (`src/services/seedPool.ts`)

External effects are inputs: provider responses (already parsed; `none`
models any network error, timeout, non-2xx status or malformed payload,
all of which the code turns into a caught exception), CSPRNG output
streams, and the outcome of the KV get/put calls (`env.SEED_POOL`), whose
rejections the pool code does not catch.
-/

inductive Source where
  | quantum
  | atmospheric
  | csprng
  deriving DecidableEq, Repr

structure SeedPool where
  seeds : List Nat
  source : Source
  createdAt : Int
  deriving DecidableEq, Repr

def POOL_SIZE : Nat := 1000

def REFILL_THRESHOLD : Nat := 100

/-- Parsed JSON body of the ANU quantum API. -/
structure QuantumResp where
  success : Bool
  data : Option (List Nat)
  deriving DecidableEq, Repr

structure Env where
  /-- ANU response; `none` is a fetch failure/timeout/non-ok/parse error. -/
  quantumResp : Option QuantumResp
  /-- Random.org parsed lines; an entry `none` is a NaN line. -/
  atmosResp : Option (List (Option Nat))
  /-- `crypto.getRandomValues` stream backing `generateCSPRNGSeeds`. -/
  csprng16 : Nat → Nat
  /-- `crypto.getRandomValues` uint32 draws available to the unique
  top-up `while` loop (a finite prefix of the unbounded stream). -/
  rand32 : List Nat
  /-- `crypto.getRandomValues` stream backing the server handler
  fallback `Uint32Array(count)`. -/
  fb32 : Nat → Nat
  /-- Outcome of `env.SEED_POOL.get(POOL_KEY, "json")`. -/
  kvGet : Except String (Option SeedPool)
  /-- Whether `env.SEED_POOL.put` succeeds (`savePool` awaits it inside
  `refillPool`, so a rejection propagates). -/
  kvPutOk : Bool
  /-- `Date.now()`. -/
  now : Int

/-- `fetchQuantumSeeds`: any thrown error (network, non-ok status, parse)
is caught and becomes `null`; a response is accepted iff `success` is set,
`data` is present and `data.length !== 0`.  The requested `count` only
shapes the URL. -/
def fetchQuantumSeeds (_count : Nat) (resp : Option QuantumResp) : Option (List Nat) :=
  match resp with
  | none => none
  | some r =>
    match r.data with
    | none => none
    | some d => if r.success = true ∧ d ≠ [] then some d else none

/-- `fetchAtmosphericSeeds`: rejects (returns `null` for) failures, short
responses (`seeds.length < count`) and any NaN line; otherwise returns all
parsed values. -/
def fetchAtmosphericSeeds (count : Nat) (resp : Option (List (Option Nat))) :
    Option (List Nat) :=
  match resp with
  | none => none
  | some parsed =>
    if parsed.length < count ∨ none ∈ parsed then none
    else some (parsed.map (fun v => v.getD 0))

/-- `generateCSPRNGSeeds`: `crypto.getRandomValues` on a `Uint16Array(count)`. -/
def generateCSPRNGSeeds (count : Nat) (g : Nat → Nat) : List Nat :=
  (List.range count).map (fun i => g i % 65536)

/-- `refillPool`: quantum (capped at `Math.min(POOL_SIZE, 1024)`), then
atmospheric, then the infallible local CSPRNG; the first success fixes the
provenance; the record then goes through `await savePool(pool)`, whose
rejection propagates. -/
def refillPool (env : Env) : Except String SeedPool :=
  let quantumCount := Nat.min POOL_SIZE 1024
  let pool : SeedPool :=
    match fetchQuantumSeeds quantumCount env.quantumResp with
    | some seeds => { seeds := seeds, source := Source.quantum, createdAt := env.now }
    | none =>
      match fetchAtmosphericSeeds POOL_SIZE env.atmosResp with
      | some seeds => { seeds := seeds, source := Source.atmospheric, createdAt := env.now }
      | none =>
        { seeds := generateCSPRNGSeeds POOL_SIZE env.csprng16
          source := Source.csprng
          createdAt := env.now }
  if env.kvPutOk then Except.ok pool else Except.error "KV put failed"

/-- Result of `consumeFromPool`, extended with observer fields recording
the effect of `pool.seeds.splice(0, count)` and the background-refill
trigger (the code returns only `numbers` and `source`). -/
structure ConsumeOutcome where
  numbers : List Int
  source : Source
  used : List Nat
  poolAfter : SeedPool
  backgroundRefill : Bool
  deriving DecidableEq, Repr

/-- `consumeFromPool`: refill synchronously when the pool is absent or
holds fewer than `count` seeds; `splice(0, count)` off the front; trigger
a fire-and-forget refill below `REFILL_THRESHOLD` (its failure and the
failure of the background `savePool` are swallowed); map each seed to
`min + (seed % range)`. -/
def consumeFromPool (env : Env) (mn mx : Int) (count : Nat) :
    Except String ConsumeOutcome :=
  match env.kvGet with
  | Except.error e => Except.error e
  | Except.ok poolOpt =>
    let poolE : Except String SeedPool :=
      match poolOpt with
      | none => refillPool env
      | some p => if p.seeds.length < count then refillPool env else Except.ok p
    match poolE with
    | Except.error e => Except.error e
    | Except.ok pool =>
      let used := pool.seeds.take count
      let remaining := pool.seeds.drop count
      let bg := remaining.length < REFILL_THRESHOLD
      let range : Int := mx - mn + 1
      let numbers := used.map (fun s : Nat => mn + (s : Int) % range)
      Except.ok
        { numbers := numbers
          source := pool.source
          used := used
          poolAfter := { pool with seeds := remaining }
          backgroundRefill := bg }

/-- `Set.add` of a JavaScript `Set`: insertion-ordered, no duplicates. -/
def setAdd (s : List Int) (x : Int) : List Int :=
  if x ∈ s then s else s ++ [x]

/-- The `for (const num of result.numbers)` loop of `consumeUniqueFromPool`:
insert until the set reaches `count` members, then break. -/
def collectUnique (count : Nat) : List Int → List Int → List Int
  | [], s => s
  | n :: rest, s =>
    let s' := setAdd s n
    if count ≤ s'.length then s' else collectUnique count rest s'

/-- The `while (uniqueSet.size < count)` top-up loop: one uint32 CSPRNG
draw per iteration, reduced to the range.  `none` means the loop would
have consumed more draws than the modelled finite prefix supplies. -/
def topUp (mn range : Int) (count : Nat) : List Int → List Nat → Option (List Int)
  | s, draws =>
    if count ≤ s.length then some s
    else
      match draws with
      | [] => none
      | d :: rest => topUp mn range count (setAdd s (mn + (d % 4294967296 : Nat) % range)) rest

structure RandomResult where
  numbers : List Int
  source : Source
  deriving DecidableEq, Repr

/-- `consumeUniqueFromPool`: reject `count > range`; over-fetch
`Math.min(count * 3, range)` values from the pool; deduplicate; top up
with direct CSPRNG draws; return the first `count` members with the pool
consumption provenance. -/
def consumeUniqueFromPool (env : Env) (mn mx : Int) (count : Nat) :
    Option (Except String RandomResult) :=
  let range : Int := mx - mn + 1
  if (count : Int) > range then
    some (Except.error "Cannot generate more unique numbers than range allows")
  else
    let fetchCount := Nat.min (count * 3) range.toNat
    match consumeFromPool env mn mx fetchCount with
    | Except.error e => some (Except.error e)
    | Except.ok res =>
      let s := collectUnique count res.numbers []
      match topUp mn range count s env.rand32 with
      | none => none
      | some s2 => some (Except.ok { numbers := s2.take count, source := res.source })

/-! ### Server draw handler (`generateRandomNumbers`, server side) -/

/-- `Array.from(new Set(list))`: first occurrences in order. -/
def dedupFirst (l : List Int) : List Int := l.foldl setAdd []

/-- The `generateRandomNumbers` server handler: validate, try the pool
tier, and catch any thrown error with a direct CSPRNG fallback
(`Uint32Array(count)` filled from `env.fb32`), deduplicated and truncated
to `count` when `unique` was requested. -/
def generateRandomNumbersServer (env : Env) (mn mx : Int) (count : Nat)
    (uniq : Bool) : Option (Except String RandomResult) :=
  if mn ≥ mx then some (Except.error "min must be less than max")
  else if count < 1 ∨ count > 100 then
    some (Except.error "count must be between 1 and 100")
  else
    let tier : Option (Except String RandomResult) :=
      if uniq then consumeUniqueFromPool env mn mx count
      else
        match consumeFromPool env mn mx count with
        | Except.error e => some (Except.error e)
        | Except.ok res => some (Except.ok { numbers := res.numbers, source := res.source })
    match tier with
    | none => none
    | some (Except.ok r) => some (Except.ok r)
    | some (Except.error _) =>
      let range : Int := mx - mn + 1
      let values := (List.range count).map (fun i => env.fb32 i % 4294967296)
      let mapped := values.map (fun v : Nat => mn + (v : Int) % range)
      let numbers := if uniq then (dedupFirst mapped).take count else mapped
      some (Except.ok { numbers := numbers, source := Source.csprng })

/-! ### Client persistence (`RandomServiceManager`) -/

structure StoredSeedData where
  seed : List Char
  source : Source
  counter : Nat
  timestamp : Int
  deriving DecidableEq, Repr

def oneDayMs : Int := 24 * 60 * 60 * 1000

/-- `RandomServiceManager.saveToStorage`: persists the seed hex, its
source, the current counter and `Date.now()`. -/
def saveToStorage (seedHex : List Char) (source : Source) (st : PRNGState)
    (now : Int) : StoredSeedData :=
  { seed := seedHex, source := source, counter := st.counter, timestamp := now }

/-- `RandomServiceManager.loadFromStorage`: a record older than 24 hours
is removed and nothing is restored; otherwise the PRNG is re-instantiated
as `new SeededPRNG(stored.seed, stored.counter)`.  Returns the restored
`(state, source)` (if any) and the storage record afterwards. -/
def loadFromStorage (now : Int) (stored : Option StoredSeedData) :
    Option (PRNGState × Source) × Option StoredSeedData :=
  match stored with
  | none => (none, none)
  | some d =>
    if now - d.timestamp > oneDayMs then (none, none)
    else (some (mkPRNG d.seed d.counter, d.source), some d)

/-! ### Concrete environments and pools used to evaluate the embedding -/

def poolW : SeedPool :=
  { seeds := [0, 0, 0, 0, 0, 0, 0, 0, 0], source := Source.quantum, createdAt := 0 }

def envW : Env :=
  { quantumResp := none
    atmosResp := none
    csprng16 := fun _ => 0
    rand32 := [1, 2]
    fb32 := fun i => 2 * i
    kvGet := Except.ok (some poolW)
    kvPutOk := true
    now := 5 }

/-- The KV read rejects (store unreachable). -/
def envKvDown : Env := { envW with kvGet := Except.error "KV unavailable" }

/-- The KV write inside `savePool` rejects. -/
def envPutFail : Env := { envW with kvPutOk := false }

/-- The quantum provider answers with three values. -/
def envQuantumUp : Env :=
  { envW with quantumResp := some { success := true, data := some [1, 2, 3] } }

def poolFifo : SeedPool :=
  { seeds := [3, 1, 4, 1, 5], source := Source.atmospheric, createdAt := 0 }

def envFifo : Env := { envW with kvGet := Except.ok (some poolFifo) }

/-! ### Basic lemmas about the hash chain -/

theorem sha256_length (msg : List Nat) : (sha256 msg).length = 32 := by
  simp [sha256, hashToBytes, wordBytes]

theorem nextBytesGo_zero (seed : List Nat) (c : Nat) :
    nextBytesGo seed c 0 = ([], c) := by
  rw [nextBytesGo.eq_def]
  simp

theorem nextBytesGo_counter (seed : List Nat) (c r : Nat) :
    (nextBytesGo seed c r).2 = c + blocksNeeded r := by
  rw [nextBytesGo.eq_def]
  split
  · rename_i h0
    subst h0
    simp [blocksNeeded]
  · rename_i h0
    simp only [sha256_length]
    have ih := nextBytesGo_counter seed (c + 1) (r - Nat.min 32 r)
    rw [ih]
    unfold blocksNeeded
    simp only [Nat.min_def]
    split <;> omega
termination_by r
decreasing_by
  simp only [Nat.min_def]
  split <;> omega

theorem nextBytesGo_length (seed : List Nat) (c r : Nat) :
    (nextBytesGo seed c r).1.length = r := by
  rw [nextBytesGo.eq_def]
  split
  · rename_i h0
    subst h0
    rfl
  · rename_i h0
    simp only [sha256_length]
    rcases Nat.le_total 32 r with hle | hle
    · have hmin : Nat.min 32 r = 32 := by simp only [Nat.min_def]; split <;> omega
      rw [hmin]
      have ih := nextBytesGo_length seed (c + 1) (r - 32)
      rw [List.length_append, List.length_take, ih, sha256_length]
      simp only [Nat.min_self]
      omega
    · have hmin : Nat.min 32 r = r := by simp only [Nat.min_def]; split <;> omega
      rw [hmin]
      have ih := nextBytesGo_length seed (c + 1) (r - r)
      rw [List.length_append, List.length_take, ih, sha256_length]
      rw [min_eq_left hle]
      omega
termination_by r
decreasing_by
  all_goals omega

theorem nextBytesGo_block (seed : List Nat) (c : Nat) :
    nextBytesGo seed c 32 = (sha256 (seed ++ be64 c), c + 1) := by
  have h32 : (sha256 (seed ++ be64 c)).length = 32 := sha256_length _
  rw [nextBytesGo.eq_def]
  norm_num [h32, nextBytesGo_zero]

theorem nextBytes_seed (n : Nat) (st : PRNGState) :
    (nextBytes n st).2.seed = st.seed := rfl

theorem runDraws_seed (ds : List (Int × Int × Nat)) (st : PRNGState) :
    (runDraws ds st).2.seed = st.seed := by
  induction ds generalizing st with
  | nil => rfl
  | cons d rest ih => simp [runDraws, ih, nextInts, nextBytes]

theorem runDraws_append (d1 d2 : List (Int × Int × Nat)) (st : PRNGState) :
    runDraws (d1 ++ d2) st =
      ((runDraws d1 st).1 ++ (runDraws d2 (runDraws d1 st).2).1,
       (runDraws d2 (runDraws d1 st).2).2) := by
  induction d1 generalizing st with
  | nil => simp [runDraws]
  | cons d rest ih => simp [runDraws, ih]



/-! ### Provider and pool lemmas -/

theorem fetchQuantum_ne_nil (c : Nat) (resp : Option QuantumResp) (s : List Nat)
    (h : fetchQuantumSeeds c resp = some s) : s ≠ [] := by
  cases resp with
  | none => simp [fetchQuantumSeeds] at h
  | some r =>
    cases hd : r.data with
    | none => simp [fetchQuantumSeeds, hd] at h
    | some d =>
      simp only [fetchQuantumSeeds, hd] at h
      split at h
      · rename_i hcond
        cases h
        exact hcond.2
      · simp at h

theorem fetchAtmos_length (c : Nat) (resp : Option (List (Option Nat))) (s : List Nat)
    (h : fetchAtmosphericSeeds c resp = some s) : c ≤ s.length := by
  cases resp with
  | none => simp [fetchAtmosphericSeeds] at h
  | some parsed =>
    simp only [fetchAtmosphericSeeds] at h
    split at h
    · simp at h
    · rename_i hcond
      cases h
      push_neg at hcond
      simp only [List.length_map]
      omega

theorem generateCSPRNGSeeds_length (count : Nat) (g : Nat → Nat) :
    (generateCSPRNGSeeds count g).length = count := by
  simp [generateCSPRNGSeeds]

/-- Claim C5: pool consumption is destructive and FIFO: with a stored pool
of size `n ≥ count`, the consumed raw seeds are exactly the first `count`
in original order, the shrunk pool is the remaining `n - count` seeds, and
the returned numbers are the modulo-mapped consumed seeds. -/
theorem consumeFromPool_fifo (env : Env) (mn mx : Int) (count : Nat) (p : SeedPool)
    (hget : env.kvGet = Except.ok (some p)) (hlen : count ≤ p.seeds.length) :
    ∃ res, consumeFromPool env mn mx count = Except.ok res ∧
      res.used = p.seeds.take count ∧
      res.numbers = (p.seeds.take count).map (fun v : Nat => mn + (v : Int) % (mx - mn + 1)) ∧
      res.source = p.source ∧
      res.poolAfter.seeds = p.seeds.drop count ∧
      res.poolAfter.seeds.length = p.seeds.length - count ∧
      res.used ++ res.poolAfter.seeds = p.seeds := by
  have heq : consumeFromPool env mn mx count = Except.ok
      { numbers := (p.seeds.take count).map (fun v : Nat => mn + (v : Int) % (mx - mn + 1))
        source := p.source
        used := p.seeds.take count
        poolAfter := { p with seeds := p.seeds.drop count }
        backgroundRefill := decide ((p.seeds.drop count).length < REFILL_THRESHOLD) } := by
    unfold consumeFromPool
    rw [hget]
    simp only []
    rw [if_neg (by omega)]
  refine ⟨_, heq, rfl, rfl, rfl, rfl, ?_, ?_⟩
  · simp
  · simp [List.take_append_drop]

/-- Witness for C5 at a concrete pool of five seeds and a draw of two. -/
theorem consumeFromPool_fifo_witness :
    envFifo.kvGet = Except.ok (some poolFifo) ∧ 2 ≤ poolFifo.seeds.length ∧
    (∃ res, consumeFromPool envFifo 0 9 2 = Except.ok res ∧
      res.used = poolFifo.seeds.take 2 ∧
      res.numbers = (poolFifo.seeds.take 2).map (fun v : Nat => (0 : Int) + (v : Int) % (9 - 0 + 1)) ∧
      res.source = poolFifo.source ∧
      res.poolAfter.seeds = poolFifo.seeds.drop 2 ∧
      res.poolAfter.seeds.length = poolFifo.seeds.length - 2 ∧
      res.used ++ res.poolAfter.seeds = poolFifo.seeds) :=
  ⟨rfl, by decide, consumeFromPool_fifo envFifo 0 9 2 poolFifo rfl (by decide)⟩

/-- Claim C9: a unique draw served from the pool carries the provenance of
the pool consumption that supplied the raw entropy (the CSPRNG top-up
never changes it). -/
theorem consumeUnique_source (env : Env) (mn mx : Int) (count : Nat) (r : RandomResult)
    (h : consumeUniqueFromPool env mn mx count = some (Except.ok r)) :
    ∃ res, consumeFromPool env mn mx (Nat.min (count * 3) (mx - mn + 1).toNat) =
        Except.ok res ∧ r.source = res.source := by
  simp only [consumeUniqueFromPool] at h
  split at h
  · simp at h
  · cases hcf : consumeFromPool env mn mx (Nat.min (count * 3) (mx - mn + 1).toNat) with
    | error e => rw [hcf] at h; simp at h
    | ok res =>
      rw [hcf] at h
      simp only [] at h
      cases ht : topUp mn (mx - mn + 1) count
          (collectUnique count res.numbers []) env.rand32 with
      | none => rw [ht] at h; simp at h
      | some s2 =>
        rw [ht] at h
        simp only [Option.some.injEq, Except.ok.injEq] at h
        exact ⟨res, rfl, by rw [← h]⟩

/-- Witness for C9: the pool holds nine duplicate seeds, so the top-up
loop supplies two CSPRNG values, yet the provenance stays `quantum`. -/
theorem consumeUnique_source_witness :
    consumeUniqueFromPool envW 0 9 3 =
      some (Except.ok { numbers := [0, 1, 2], source := Source.quantum }) ∧
    (∃ res, consumeFromPool envW 0 9 (Nat.min (3 * 3) ((9 : Int) - 0 + 1).toNat) =
        Except.ok res ∧
      ({ numbers := [0, 1, 2], source := Source.quantum } : RandomResult).source =
        res.source) :=
  ⟨rfl, consumeUnique_source envW 0 9 3 _ rfl⟩

/-- Counterexample for C4: when the KV write awaited inside `refillPool`
rejects, `refillPool` itself fails instead of returning a pool record. -/
theorem refillPool_can_fail : refillPool envPutFail = Except.error "KV put failed" := rfl

/-- Claim C4 (amended): provided the KV write succeeds, `refillPool`
always returns a record with provenance among the three sources and
non-empty seeds; providers are attempted quantum, then atmospheric, then
CSPRNG, the first success fixes provenance and seeds, and the result is
independent of the previously stored pool. -/
theorem refillPool_amended (env : Env) (hput : env.kvPutOk = true) :
    ∃ p, refillPool env = Except.ok p ∧
      (p.source = Source.quantum ∨ p.source = Source.atmospheric ∨
        p.source = Source.csprng) ∧
      p.seeds ≠ [] ∧
      (∀ s, fetchQuantumSeeds (Nat.min POOL_SIZE 1024) env.quantumResp = some s →
        p.source = Source.quantum ∧ p.seeds = s) ∧
      (fetchQuantumSeeds (Nat.min POOL_SIZE 1024) env.quantumResp = none →
        ∀ s, fetchAtmosphericSeeds POOL_SIZE env.atmosResp = some s →
          p.source = Source.atmospheric ∧ p.seeds = s) ∧
      (fetchQuantumSeeds (Nat.min POOL_SIZE 1024) env.quantumResp = none →
        fetchAtmosphericSeeds POOL_SIZE env.atmosResp = none →
          p.source = Source.csprng ∧
          p.seeds = generateCSPRNGSeeds POOL_SIZE env.csprng16) ∧
      (∀ g, refillPool { env with kvGet := g } = refillPool env) := by
  cases hq : fetchQuantumSeeds (Nat.min POOL_SIZE 1024) env.quantumResp with
  | some sq =>
    refine ⟨{ seeds := sq, source := Source.quantum, createdAt := env.now },
      ?_, ?_, ?_, ?_, ?_, ?_, ?_⟩
    · simp [refillPool, hq, hput]
    · simp
    · exact fetchQuantum_ne_nil _ _ _ hq
    · intro s hs
      cases hs
      exact ⟨rfl, rfl⟩
    · intro hnone
      simp at hnone
    · intro hnone
      simp at hnone
    · intro g
      rfl
  | none =>
    cases ha : fetchAtmosphericSeeds POOL_SIZE env.atmosResp with
    | some sa =>
      refine ⟨{ seeds := sa, source := Source.atmospheric, createdAt := env.now },
        ?_, ?_, ?_, ?_, ?_, ?_, ?_⟩
      · simp [refillPool, hq, ha, hput]
      · simp
      · have hle := fetchAtmos_length POOL_SIZE env.atmosResp sa ha
        intro hnil
        have hnil2 : sa = [] := hnil
        rw [hnil2] at hle
        simp [POOL_SIZE] at hle
      · intro s hs
        simp at hs
      · intro _ s hs
        cases hs
        exact ⟨rfl, rfl⟩
      · intro _ hnone
        simp at hnone
      · intro g
        rfl
    | none =>
      refine ⟨{ seeds := generateCSPRNGSeeds POOL_SIZE env.csprng16,
                source := Source.csprng, createdAt := env.now },
        ?_, ?_, ?_, ?_, ?_, ?_, ?_⟩
      · simp [refillPool, hq, ha, hput]
      · simp
      · intro hnil
        have hnil2 : generateCSPRNGSeeds POOL_SIZE env.csprng16 = [] := hnil
        have hlen := generateCSPRNGSeeds_length POOL_SIZE env.csprng16
        rw [hnil2] at hlen
        simp [POOL_SIZE] at hlen
      · intro s hs
        simp at hs
      · intro _ s hs
        simp at hs
      · intro _ _
        exact ⟨rfl, rfl⟩
      · intro g
        rfl

/-- Witness for C4 at an environment whose quantum provider answers. -/
theorem refillPool_amended_witness :
    envQuantumUp.kvPutOk = true ∧
    (∃ p, refillPool envQuantumUp = Except.ok p ∧
      (p.source = Source.quantum ∨ p.source = Source.atmospheric ∨
        p.source = Source.csprng) ∧
      p.seeds ≠ [] ∧
      (∀ s, fetchQuantumSeeds (Nat.min POOL_SIZE 1024) envQuantumUp.quantumResp = some s →
        p.source = Source.quantum ∧ p.seeds = s) ∧
      (fetchQuantumSeeds (Nat.min POOL_SIZE 1024) envQuantumUp.quantumResp = none →
        ∀ s, fetchAtmosphericSeeds POOL_SIZE envQuantumUp.atmosResp = some s →
          p.source = Source.atmospheric ∧ p.seeds = s) ∧
      (fetchQuantumSeeds (Nat.min POOL_SIZE 1024) envQuantumUp.quantumResp = none →
        fetchAtmosphericSeeds POOL_SIZE envQuantumUp.atmosResp = none →
          p.source = Source.csprng ∧
          p.seeds = generateCSPRNGSeeds POOL_SIZE envQuantumUp.csprng16) ∧
      (∀ g, refillPool { envQuantumUp with kvGet := g } = refillPool envQuantumUp)) :=
  ⟨rfl, refillPool_amended envQuantumUp rfl⟩

/-- Counterexample for C6: the quantum fetcher accepts a one-element
result for a request of 1000 — a short result accepted as success. -/
theorem fetchQuantum_accepts_short :
    fetchQuantumSeeds 1000 (some { success := true, data := some [5] }) = some [5] ∧
    ([5] : List Nat).length < 1000 :=
  ⟨rfl, by decide⟩

/-- Claim C6 (amended): provider fetch failures (network error, timeout,
bad status, malformed payload) degrade to `none` and never escape as
exceptions; the atmospheric fetcher additionally rejects short results,
while the quantum fetcher accepts any response flagged successful with
non-empty data, short ones included. -/
theorem providers_degrade_total (c : Nat) (r : QuantumResp) (parsed : List (Option Nat)) :
    fetchQuantumSeeds c none = none ∧
    fetchAtmosphericSeeds c none = none ∧
    (∀ s, fetchQuantumSeeds c (some r) = some s →
      r.success = true ∧ r.data = some s ∧ s ≠ []) ∧
    (r.success = false ∨ r.data = none → fetchQuantumSeeds c (some r) = none) ∧
    (parsed.length < c ∨ none ∈ parsed → fetchAtmosphericSeeds c (some parsed) = none) ∧
    (∀ s, fetchAtmosphericSeeds c (some parsed) = some s →
      c ≤ parsed.length ∧ s.length = parsed.length ∧ c ≤ s.length) := by
  refine ⟨rfl, rfl, ?_, ?_, ?_, ?_⟩
  · intro s hs
    cases hd : r.data with
    | none => simp [fetchQuantumSeeds, hd] at hs
    | some d =>
      simp only [fetchQuantumSeeds, hd] at hs
      split at hs
      · rename_i hcond
        cases hs
        exact ⟨hcond.1, rfl, hcond.2⟩
      · simp at hs
  · intro hbad
    cases hd : r.data with
    | none => simp [fetchQuantumSeeds, hd]
    | some d =>
      simp only [fetchQuantumSeeds, hd]
      rcases hbad with hb | hb
      · rw [if_neg]
        intro hc
        rw [hb] at hc
        cases hc.1
      · rw [hb] at hd
        cases hd
  · intro hbad
    simp only [fetchAtmosphericSeeds]
    rw [if_pos hbad]
  · intro s hs
    simp only [fetchAtmosphericSeeds] at hs
    split at hs
    · simp at hs
    · rename_i hcond
      cases hs
      push_neg at hcond
      refine ⟨hcond.1, ?_, ?_⟩
      · simp
      · simp only [List.length_map]
        exact hcond.1

/-! ### Range lemmas -/

theorem int_mod_range (mn mx : Int) (v : Nat) (h : mn < mx) :
    mn ≤ mn + (v : Int) % (mx - mn + 1) ∧ mn + (v : Int) % (mx - mn + 1) ≤ mx := by
  have h1 : (0 : Int) ≤ (v : Int) % (mx - mn + 1) := Int.emod_nonneg _ (by omega)
  have h2 : (v : Int) % (mx - mn + 1) < mx - mn + 1 :=
    Int.emod_lt_of_pos _ (by omega)
  omega

theorem mapped_in_range (mn mx : Int) (h : mn < mx) (l : List Nat) :
    ∀ x ∈ l.map (fun v : Nat => mn + (v : Int) % (mx - mn + 1)), mn ≤ x ∧ x ≤ mx := by
  intro x hx
  rcases List.mem_map.1 hx with ⟨v, _, rfl⟩
  exact int_mod_range mn mx v h

theorem setAdd_pred {P : Int → Prop} (s : List Int) (y : Int)
    (hs : ∀ x ∈ s, P x) (hy : P y) : ∀ x ∈ setAdd s y, P x := by
  intro x hx
  unfold setAdd at hx
  split at hx
  · exact hs x hx
  · rcases List.mem_append.1 hx with hxx | hxx
    · exact hs x hxx
    · rcases List.mem_singleton.1 hxx with rfl
      exact hy

theorem collectUnique_pred {P : Int → Prop} (count : Nat) :
    ∀ (nums s : List Int), (∀ x ∈ s, P x) → (∀ x ∈ nums, P x) →
      ∀ x ∈ collectUnique count nums s, P x := by
  intro nums
  induction nums with
  | nil =>
    intro s hs _ x hx
    exact hs x hx
  | cons n rest ih =>
    intro s hs hn x hx
    simp only [collectUnique] at hx
    split at hx
    · exact setAdd_pred s n hs (hn n (by simp)) x hx
    · exact ih (setAdd s n) (setAdd_pred s n hs (hn n (by simp)))
        (fun y hy => hn y (by simp [hy])) x hx

theorem topUp_pred {P : Int → Prop} (mn range : Int) (count : Nat) :
    ∀ (draws : List Nat) (s s2 : List Int),
      (∀ x ∈ s, P x) →
      (∀ d : Nat, P (mn + ((d % 4294967296 : Nat) : Int) % range)) →
      topUp mn range count s draws = some s2 → ∀ x ∈ s2, P x := by
  intro draws
  induction draws with
  | nil =>
    intro s s2 hs _ ht
    simp only [topUp] at ht
    split at ht
    · cases ht
      exact hs
    · simp at ht
  | cons d rest ih =>
    intro s s2 hs hd ht
    simp only [topUp] at ht
    split at ht
    · cases ht
      exact hs
    · exact ih (setAdd s (mn + ((d % 4294967296 : Nat) : Int) % range)) s2
        (setAdd_pred _ _ hs (hd d)) hd ht

theorem foldl_setAdd_mem :
    ∀ (l acc : List Int) (x : Int), x ∈ l.foldl setAdd acc → x ∈ acc ∨ x ∈ l := by
  intro l
  induction l with
  | nil =>
    intro acc x hx
    exact Or.inl hx
  | cons a rest ih =>
    intro acc x hx
    simp only [List.foldl_cons] at hx
    rcases ih (setAdd acc a) x hx with hmem | hmem
    · unfold setAdd at hmem
      split at hmem
      · exact Or.inl hmem
      · rcases List.mem_append.1 hmem with hh | hh
        · exact Or.inl hh
        · rcases List.mem_singleton.1 hh with rfl
          exact Or.inr (by simp)
    · exact Or.inr (by simp [hmem])

theorem dedupFirst_subset (l : List Int) (x : Int) (hx : x ∈ dedupFirst l) : x ∈ l := by
  rcases foldl_setAdd_mem l [] x hx with h | h
  · simp at h
  · exact h

theorem consumeFromPool_numbers (env : Env) (mn mx : Int) (count : Nat)
    (res : ConsumeOutcome) (h : consumeFromPool env mn mx count = Except.ok res) :
    res.numbers = res.used.map (fun v : Nat => mn + (v : Int) % (mx - mn + 1)) := by
  cases hkv : env.kvGet with
  | error e =>
    simp [consumeFromPool, hkv] at h
  | ok poolOpt =>
    simp only [consumeFromPool, hkv] at h
    cases hpe : (match poolOpt with
      | none => refillPool env
      | some p => if p.seeds.length < count then refillPool env else Except.ok p) with
    | error e =>
      rw [hpe] at h
      simp at h
    | ok pool =>
      rw [hpe] at h
      simp only [Except.ok.injEq] at h
      subst h
      rfl

theorem consumeFromPool_range (env : Env) (mn mx : Int) (count : Nat)
    (res : ConsumeOutcome) (hlt : mn < mx)
    (h : consumeFromPool env mn mx count = Except.ok res) :
    ∀ x ∈ res.numbers, mn ≤ x ∧ x ≤ mx := by
  rw [consumeFromPool_numbers env mn mx count res h]
  exact mapped_in_range mn mx hlt res.used

theorem consumeUnique_range (env : Env) (mn mx : Int) (count : Nat)
    (r : RandomResult) (hlt : mn < mx)
    (h : consumeUniqueFromPool env mn mx count = some (Except.ok r)) :
    ∀ x ∈ r.numbers, mn ≤ x ∧ x ≤ mx := by
  simp only [consumeUniqueFromPool] at h
  split at h
  · simp at h
  · cases hcf : consumeFromPool env mn mx (Nat.min (count * 3) (mx - mn + 1).toNat) with
    | error e =>
      rw [hcf] at h
      simp at h
    | ok res =>
      rw [hcf] at h
      simp only [] at h
      cases ht : topUp mn (mx - mn + 1) count
          (collectUnique count res.numbers []) env.rand32 with
      | none =>
        rw [ht] at h
        simp at h
      | some s2 =>
        rw [ht] at h
        simp only [Option.some.injEq, Except.ok.injEq] at h
        subst h
        intro x hx
        have hx2 : x ∈ s2 := List.take_subset _ _ hx
        have hres := consumeFromPool_range env mn mx _ res hlt hcf
        have hcoll : ∀ y ∈ collectUnique count res.numbers [], mn ≤ y ∧ y ≤ mx :=
          collectUnique_pred count res.numbers [] (by simp) hres
        exact topUp_pred mn (mx - mn + 1) count env.rand32 _ s2 hcoll
          (fun d => int_mod_range mn mx (d % 4294967296) hlt) ht x hx2

/-- Claim C3: every returned number lies in `[min, max]`, and raw values
are mapped as `min + (v mod (max - min + 1))` on every path — pool
consumption, the hash-chain PRNG, and the direct CSPRNG fallback of the
server handler. -/
theorem numbers_in_range (mn mx : Int) (hlt : mn < mx) :
    (∀ env count uniq r,
        generateRandomNumbersServer env mn mx count uniq = some (Except.ok r) →
        ∀ x ∈ r.numbers, mn ≤ x ∧ x ≤ mx) ∧
    (∀ env count res, consumeFromPool env mn mx count = Except.ok res →
        res.numbers = res.used.map (fun v : Nat => mn + (v : Int) % (mx - mn + 1)) ∧
        ∀ x ∈ res.numbers, mn ≤ x ∧ x ≤ mx) ∧
    (∀ st count,
        (nextInts mn mx count st).1 = (List.range count).map (fun i =>
          mn + (u32FromBytes ((nextBytes (count * 4) st).1.drop (i * 4)) : Int) %
            (mx - mn + 1)) ∧
        ∀ x ∈ (nextInts mn mx count st).1, mn ≤ x ∧ x ≤ mx) := by
  refine ⟨?_, ?_, ?_⟩
  · intro env count uniq r hok
    simp only [generateRandomNumbersServer] at hok
    rw [if_neg (by omega)] at hok
    split at hok
    · simp at hok
    · cases uniq with
      | true =>
        simp only [if_true] at hok
        cases hu : consumeUniqueFromPool env mn mx count with
        | none =>
          rw [hu] at hok
          simp at hok
        | some ex =>
          cases ex with
          | ok r2 =>
            rw [hu] at hok
            simp only [Option.some.injEq, Except.ok.injEq] at hok
            subst hok
            exact consumeUnique_range env mn mx count r2 hlt hu
          | error e =>
            rw [hu] at hok
            simp only [Option.some.injEq, Except.ok.injEq] at hok
            subst hok
            intro x hx
            have hx2 := List.take_subset _ _ hx
            have hx3 := dedupFirst_subset _ x hx2
            exact mapped_in_range mn mx hlt _ x hx3
      | false =>
        simp only [Bool.false_eq_true, if_false] at hok
        cases hc : consumeFromPool env mn mx count with
        | error e =>
          rw [hc] at hok
          simp only [Option.some.injEq, Except.ok.injEq] at hok
          subst hok
          exact mapped_in_range mn mx hlt _
        | ok res =>
          rw [hc] at hok
          simp only [Option.some.injEq, Except.ok.injEq] at hok
          subst hok
          exact consumeFromPool_range env mn mx count res hlt hc
  · intro env count res h
    exact ⟨consumeFromPool_numbers env mn mx count res h,
      consumeFromPool_range env mn mx count res hlt h⟩
  · intro st count
    refine ⟨rfl, ?_⟩
    intro x hx
    rcases List.mem_map.1 hx with ⟨i, _, rfl⟩
    exact int_mod_range mn mx _ hlt

/-- Witness for C3 at the concrete range `[0, 1]`. -/
theorem numbers_in_range_witness :
    (0 : Int) < 1 ∧
    ((∀ env count uniq r,
        generateRandomNumbersServer env 0 1 count uniq = some (Except.ok r) →
        ∀ x ∈ r.numbers, (0 : Int) ≤ x ∧ x ≤ 1) ∧
    (∀ env count res, consumeFromPool env 0 1 count = Except.ok res →
        res.numbers = res.used.map (fun v : Nat => (0 : Int) + (v : Int) % (1 - 0 + 1)) ∧
        ∀ x ∈ res.numbers, (0 : Int) ≤ x ∧ x ≤ 1) ∧
    (∀ st count,
        (nextInts 0 1 count st).1 = (List.range count).map (fun i =>
          (0 : Int) + (u32FromBytes ((nextBytes (count * 4) st).1.drop (i * 4)) : Int) %
            (1 - 0 + 1)) ∧
        ∀ x ∈ (nextInts 0 1 count st).1, (0 : Int) ≤ x ∧ x ≤ 1)) :=
  ⟨by decide, numbers_in_range 0 1 (by decide)⟩

/-- Claim C7: for every 32-byte seed and counter, the next block of the
hash chain is SHA-256 of the 40-byte `seed ‖ be64(counter)`; the block is
a function of `(seed, counter)` alone; and for the all-zero seed at
counter 0 the first block is the fixed regression vector. -/
theorem hashchain_block_formula (seed : List Nat) (c : Nat) (hlen : seed.length = 32) :
    nextBytes 32 ⟨seed, c⟩ = (sha256 (seed ++ be64 c), ⟨seed, c + 1⟩) ∧
    (seed ++ be64 c).length = 40 ∧
    (∀ s1 s2 : PRNGState, s1.seed = s2.seed → s1.counter = s2.counter →
      nextBytes 32 s1 = nextBytes 32 s2) ∧
    (nextBytes 32 ⟨List.replicate 32 0, 0⟩).1 =
      [0x2c, 0x34, 0xce, 0x1d, 0xf2, 0x3b, 0x83, 0x8c,
       0x5a, 0xbf, 0x2a, 0x7f, 0x64, 0x37, 0xcc, 0xa3,
       0xd3, 0x06, 0x7e, 0xd5, 0x09, 0xff, 0x25, 0xf1,
       0x1d, 0xf6, 0xb1, 0x1b, 0x58, 0x2b, 0x51, 0xeb] := by
  refine ⟨?_, ?_, ?_, ?_⟩
  · simp [nextBytes, nextBytesGo_block]
  · simp [be64, hlen]
  · intro s1 s2 h1 h2
    cases s1 with
    | mk sd1 c1 =>
      cases s2 with
      | mk sd2 c2 => simp_all
  · have h := nextBytesGo_block (List.replicate 32 0) 0
    simp only [nextBytes, h]
    decide

/-- Witness for C7 at the all-zero 32-byte seed and counter 0. -/
theorem hashchain_block_formula_witness :
    (List.replicate 32 0).length = 32 ∧
    (nextBytes 32 ⟨List.replicate 32 0, 0⟩ =
      (sha256 (List.replicate 32 0 ++ be64 0), ⟨List.replicate 32 0, 0 + 1⟩) ∧
    (List.replicate 32 0 ++ be64 0).length = 40 ∧
    (∀ s1 s2 : PRNGState, s1.seed = s2.seed → s1.counter = s2.counter →
      nextBytes 32 s1 = nextBytes 32 s2) ∧
    (nextBytes 32 ⟨List.replicate 32 0, 0⟩).1 =
      [0x2c, 0x34, 0xce, 0x1d, 0xf2, 0x3b, 0x83, 0x8c,
       0x5a, 0xbf, 0x2a, 0x7f, 0x64, 0x37, 0xcc, 0xa3,
       0xd3, 0x06, 0x7e, 0xd5, 0x09, 0xff, 0x25, 0xf1,
       0x1d, 0xf6, 0xb1, 0x1b, 0x58, 0x2b, 0x51, 0xeb]) :=
  ⟨by decide, hashchain_block_formula (List.replicate 32 0) 0 (by decide)⟩

/-- Claim C8: the persisted counter advances by exactly the number of
32-byte blocks consumed, and a PRNG re-instantiated through
`saveToStorage`/`loadFromStorage` from the persisted `(seed, counter)`
reproduces exactly the stream an uninterrupted run would have produced. -/
theorem prng_counter_resume (seedHex : List Char) (c0 : Nat) (src : Source)
    (d1 d2 : List (Int × Int × Nat)) (t1 t2 : Int) (hfresh : t2 - t1 ≤ oneDayMs) :
    (∀ (st : PRNGState) (n : Nat),
      (nextBytes n st).2.counter = st.counter + blocksNeeded n ∧
      (nextBytes n st).1.length = n) ∧
    (∃ rst,
      (loadFromStorage t2 (some (saveToStorage seedHex src
        (runDraws d1 (mkPRNG seedHex c0)).2 t1))).1 = some (rst, src) ∧
      runDraws (d1 ++ d2) (mkPRNG seedHex c0) =
        ((runDraws d1 (mkPRNG seedHex c0)).1 ++ (runDraws d2 rst).1,
          (runDraws d2 rst).2)) := by
  constructor
  · intro st n
    exact ⟨nextBytesGo_counter st.seed st.counter n,
      nextBytesGo_length st.seed st.counter n⟩
  · have hstate : mkPRNG seedHex ((runDraws d1 (mkPRNG seedHex c0)).2.counter) =
        (runDraws d1 (mkPRNG seedHex c0)).2 := by
      have hseed := runDraws_seed d1 (mkPRNG seedHex c0)
      cases hr : (runDraws d1 (mkPRNG seedHex c0)).2 with
      | mk sd cc =>
        rw [hr] at hseed
        simp only [mkPRNG] at hseed ⊢
        simp [hseed]
    refine ⟨(runDraws d1 (mkPRNG seedHex c0)).2, ?_, ?_⟩
    · simp only [loadFromStorage, saveToStorage]
      rw [if_neg (by omega)]
      simp [hstate]
    · rw [runDraws_append]

/-- Witness for C8: one draw, then one resumed draw, persisted and
restored on the same day. -/
theorem prng_counter_resume_witness :
    ((0 : Int) - 0 ≤ oneDayMs) ∧
    ((∀ (st : PRNGState) (n : Nat),
      (nextBytes n st).2.counter = st.counter + blocksNeeded n ∧
      (nextBytes n st).1.length = n) ∧
    (∃ rst,
      (loadFromStorage 0 (some (saveToStorage ['0', '0'] Source.csprng
        (runDraws [((0 : Int), (9 : Int), 1)] (mkPRNG ['0', '0'] 0)).2 0))).1 =
        some (rst, Source.csprng) ∧
      runDraws ([((0 : Int), (9 : Int), 1)] ++ [((0 : Int), (9 : Int), 2)])
          (mkPRNG ['0', '0'] 0) =
        ((runDraws [((0 : Int), (9 : Int), 1)] (mkPRNG ['0', '0'] 0)).1 ++
            (runDraws [((0 : Int), (9 : Int), 2)] rst).1,
          (runDraws [((0 : Int), (9 : Int), 2)] rst).2))) :=
  ⟨by decide, prng_counter_resume ['0', '0'] 0 Source.csprng
    [((0 : Int), (9 : Int), 1)] [((0 : Int), (9 : Int), 2)] 0 0 (by decide)⟩

/-- Claim C10: a persisted client PRNG state strictly older than 24 hours
is removed on load and nothing is restored; a state at most 24 hours old
is restored as `new SeededPRNG(stored.seed, stored.counter)`. -/
theorem stale_storage_discarded (now : Int) (d : StoredSeedData) :
    (now - d.timestamp > oneDayMs → loadFromStorage now (some d) = (none, none)) ∧
    (now - d.timestamp ≤ oneDayMs →
      loadFromStorage now (some d) =
        (some (mkPRNG d.seed d.counter, d.source), some d)) := by
  constructor
  · intro h
    simp only [loadFromStorage]
    rw [if_pos h]
  · intro h
    simp only [loadFromStorage]
    rw [if_neg (by omega)]

/-- Claim C1 (code bug, evaluated at the failing input): a valid unique
request (`min 0 < max 1`, `count 2 ≤ 100`, `count ≤ range`) that reaches
the terminal CSPRNG fallback (the KV read rejects) with colliding raw
draws yields one number instead of `count = 2` pairwise-distinct ones. -/
theorem unique_fallback_short :
    generateRandomNumbersServer envKvDown 0 1 2 true =
      some (Except.ok { numbers := [0], source := Source.csprng }) ∧
    ({ numbers := [0], source := Source.csprng } : RandomResult).numbers.length ≠ 2 :=
  ⟨rfl, by decide⟩

/-- Claim C2 (code bug, evaluated at the failing input): the contract
error for `unique` with `count 3 > range 2` is raised by
`consumeUniqueFromPool`, but the handler's blanket `catch` converts it
into an `ok` CSPRNG fallback result instead of surfacing it. -/
theorem contract_error_swallowed :
    consumeUniqueFromPool envW 1 2 3 =
      some (Except.error "Cannot generate more unique numbers than range allows") ∧
    generateRandomNumbersServer envW 1 2 3 true =
      some (Except.ok { numbers := [1], source := Source.csprng }) :=
  ⟨rfl, rfl⟩

end RNG
